import Mathlib

/-!
Verification of the Cache & Aggregation Engine of the context-engine service.

The development shallowly embeds the two core components:
- the bounded recency (LRU) cache and the tiered cache manager
  (src/core/cache_manager.py), and
- the dimension aggregator (src/core/context_builder.py) together with the
  parts of the data model (src/models/dimensions.py) it scores.

Conventions of the embedding:
- `datetime` values are modelled as natural-number timestamps; every operation
  that reads the clock takes the current time `now : Nat` explicitly.
- Python `float` scores are modelled as rationals (`ℚ`).
- payload items whose contents are irrelevant to the modelled operations
  (parties, timeline events, precedents, ...) are abstracted to `String`;
  only their list lengths are consumed by the engine.
- fallible operations return `Except String` (`ValueError` / pydantic
  `ValidationError` become `Except.error`).
-/

deriving instance DecidableEq for Except

namespace ContextEngine

/-! ## Dimension payloads (src/models/dimensions.py)

Only the fields consumed by `ContextBuilder._score_dimension`,
`_count_data_points` and `_get_case_name` are modelled. -/

/-- WHO dimension context (`WhoContext`). -/
structure WhoContext where
  case_id : String
  case_name : String
  parties : List String
  judges : List String
  attorneys : List String
  witnesses : List String
  deriving DecidableEq, Repr

/-- WHAT dimension context (`WhatContext`). -/
structure WhatContext where
  case_id : String
  case_name : String
  causes_of_action : List String
  legal_issues : List String
  statutes : List String
  case_citations : List String
  deriving DecidableEq, Repr

/-- WHERE dimension context (`WhereContext`). `primary_jurisdiction`, `court`
and `venue` are required strings; Python truthiness (`bool(s)`) is modelled as
non-emptiness. -/
structure WhereContext where
  case_id : String
  case_name : String
  primary_jurisdiction : String
  court : String
  venue : String
  deriving DecidableEq, Repr

/-- WHEN dimension context (`WhenContext`). `filing_date` is a required
`datetime` field of the pydantic model (every constructor call in
`WhenAnalyzer.analyze` supplies one), modelled as a timestamp. -/
structure WhenContext where
  case_id : String
  case_name : String
  filing_date : Nat
  timeline : List String
  upcoming_deadlines : List String
  past_deadlines : List String
  deriving DecidableEq, Repr

/-- WHY dimension context (`WhyContext`). -/
structure WhyContext where
  case_id : String
  case_name : String
  legal_theories : List String
  supporting_precedents : List String
  opposing_precedents : List String
  deriving DecidableEq, Repr

/-! ## Per-dimension scoring (ContextBuilder._score_dimension) -/

/-- WHO branch of `_score_dimension`: 10+ data points = full score. -/
def score_who (c : WhoContext) : ℚ :=
  let data_points : Nat :=
    c.parties.length + c.judges.length + c.attorneys.length + c.witnesses.length
  min 1 ((data_points : ℚ) / 10)

/-- WHAT branch of `_score_dimension`. -/
def score_what (c : WhatContext) : ℚ :=
  let data_points : Nat :=
    c.causes_of_action.length + c.legal_issues.length + c.statutes.length +
      c.case_citations.length
  min 1 ((data_points : ℚ) / 10)

/-- WHERE branch of `_score_dimension`: one third per present field. -/
def score_where (c : WhereContext) : ℚ :=
  let has_jurisdiction : ℚ := if c.primary_jurisdiction = "" then 0 else 1
  let has_court : ℚ := if c.court = "" then 0 else 1
  let has_venue : ℚ := if c.venue = "" then 0 else 1
  (has_jurisdiction + has_court + has_venue) / 3

/-- WHEN branch of `_score_dimension`. In the source,
`has_filing_date = bool(context.filing_date)`; a `datetime` object is always
truthy and the field is required, so the 0.3 boost always applies. The sum is
returned without re-clamping, so this branch can exceed 1. -/
def score_when (c : WhenContext) : ℚ :=
  let data_points : Nat :=
    c.timeline.length + c.upcoming_deadlines.length + c.past_deadlines.length
  let has_filing_date : Bool := true
  let time_score : ℚ := min 1 ((data_points : ℚ) / 10)
  time_score + (if has_filing_date then 3/10 else 0)

/-- WHY branch of `_score_dimension`. -/
def score_why (c : WhyContext) : ℚ :=
  let data_points : Nat :=
    c.legal_theories.length + c.supporting_precedents.length +
      c.opposing_precedents.length
  min 1 ((data_points : ℚ) / 10)

/-- A dimension result value: the payload of one of the five analyzers. The
source dispatches `_score_dimension` on the dimension-name string; names and
payload types always agree because `_build_dimensions_parallel` maps each name
to its own analyzer's result. -/
inductive DimContext where
  | whoCtx (c : WhoContext)
  | whatCtx (c : WhatContext)
  | whereCtx (c : WhereContext)
  | whenCtx (c : WhenContext)
  | whyCtx (c : WhyContext)
  deriving DecidableEq, Repr

/-- `_score_dimension` for a non-`None` context (the five reachable
name/payload combinations). -/
def score_dimension : DimContext → ℚ
  | .whoCtx c => score_who c
  | .whatCtx c => score_what c
  | .whereCtx c => score_where c
  | .whenCtx c => score_when c
  | .whyCtx c => score_why c

/-- `_score_dimension` including its `context is None` guard (score 0). -/
def score_dimension_opt : Option DimContext → ℚ
  | none => 0
  | some c => score_dimension c

/-- The `case_name` attribute exposed by every dimension context. -/
def DimContext.caseName : DimContext → String
  | .whoCtx c => c.case_name
  | .whatCtx c => c.case_name
  | .whereCtx c => c.case_name
  | .whenCtx c => c.case_name
  | .whyCtx c => c.case_name

/-! ## Dimension results dictionary

`_build_dimensions_parallel` returns a dict whose keys are the requested
dimension names (inserted in the fixed order WHO, WHAT, WHERE, WHEN, WHY) and
whose value for a dimension is the analyzer result, or `None` when the
analyzer raised. `none` below = dimension not requested (key absent);
`some none` = requested but failed; `some (some c)` = succeeded. -/
structure DimensionResults where
  who : Option (Option WhoContext)
  what : Option (Option WhatContext)
  whereDim : Option (Option WhereContext)
  whenDim : Option (Option WhenContext)
  why : Option (Option WhyContext)
  deriving DecidableEq, Repr

/-- One dict entry as a (possibly empty) list of values. -/
def optValue {α : Type} (o : Option (Option α)) (f : α → DimContext) :
    List (Option DimContext) :=
  match o with
  | none => []
  | some oc => [oc.map f]

/-- The values of the results dict, in key-insertion order. -/
def DimensionResults.values (r : DimensionResults) : List (Option DimContext) :=
  optValue r.who .whoCtx ++ optValue r.what .whatCtx ++
    optValue r.whereDim .whereCtx ++ optValue r.whenDim .whenCtx ++
    optValue r.why .whyCtx

/-- `ContextBuilder._calculate_context_score`: average of per-dimension scores
(failed dimensions scoring 0), multiplied by the fraction of successful
dimensions, clamped to [0, 1]; 0 for an empty dict. -/
def calculate_context_score (r : DimensionResults) : ℚ :=
  let values := r.values
  let total_dimensions := values.length
  if total_dimensions = 0 then 0
  else
    let successful_dimensions := (values.filter Option.isSome).length
    let dimension_scores := values.map score_dimension_opt
    let avg_score := dimension_scores.sum / (total_dimensions : ℚ)
    let completeness_frac := (successful_dimensions : ℚ) / (total_dimensions : ℚ)
    let final_score := avg_score * completeness_frac
    min 1 (max 0 final_score)

/-- `ContextBuilder.COMPLETENESS_THRESHOLD = 0.85`. -/
def COMPLETENESS_THRESHOLD : ℚ := 85/100

/-! ## Scope and dimension selection (ContextBuilder._determine_dimensions) -/

/-- The fixed set of legal dimension names. -/
def VALID_DIMENSIONS : List String := ["WHO", "WHAT", "WHERE", "WHEN", "WHY"]

/-- `ContextBuilder.SCOPES`. -/
def SCOPES : List (String × List String) :=
  [("minimal", ["WHO", "WHERE"]),
   ("standard", ["WHO", "WHAT", "WHERE", "WHEN"]),
   ("comprehensive", ["WHO", "WHAT", "WHERE", "WHEN", "WHY"])]

/-- `ContextBuilder._determine_dimensions`. In the source,
`if include_dimensions:` is Python truthiness, so both `None` and an empty
explicit list fall through to the scope lookup. -/
def determine_dimensions (scope : String)
    (include_dimensions : Option (List String)) : Except String (List String) :=
  let incl := include_dimensions.getD []
  if incl ≠ [] then
    let invalid := incl.filter (fun d => ¬ VALID_DIMENSIONS.contains d)
    if invalid ≠ [] then
      Except.error ("Invalid dimension names: " ++ String.intercalate ", " invalid)
    else
      Except.ok incl
  else
    match SCOPES.lookup scope with
    | some dims => Except.ok dims
    | none => Except.error ("Invalid scope: " ++ scope)

/-! ## Bounded recency cache (src/core/cache_manager.py, class LRUCache)

The `OrderedDict` is modelled as an association list with the oldest entry at
the head and the most recently used at the tail. The value type is a
parameter: the engine stores `ContextResponse` dumps, the cache is agnostic. -/

/-- `CacheEntry` (src/core/cache_manager.py). -/
structure CacheEntry (α : Type) where
  key : String
  value : α
  created_at : Nat
  expires_at : Nat
  hit_count : Nat
  last_accessed : Option Nat
  case_status : String
  deriving DecidableEq, Repr

/-- `CacheEntry.is_expired`: `datetime.now() >= self.expires_at`. -/
def CacheEntry.is_expired (now : Nat) (e : CacheEntry α) : Bool :=
  decide (e.expires_at ≤ now)

/-- State of one `LRUCache` instance. -/
structure LRUCache (α : Type) where
  max_size : Nat
  default_ttl : Nat
  cache : List (String × CacheEntry α)
  deriving DecidableEq, Repr

/-- Remove the binding of `key` (the `OrderedDict` holds it at most once). -/
def eraseKey (key : String) (l : List (String × CacheEntry α)) :
    List (String × CacheEntry α) :=
  l.filter (fun p => ¬ p.1 = key)

/-- The keys of the cache, oldest first. -/
def LRUCache.keys (s : LRUCache α) : List String :=
  s.cache.map Prod.fst

/-- A fresh cache (`LRUCache.__init__`). -/
def LRUCache.empty (α : Type) (max_size : Nat := 1000) (default_ttl : Nat := 600) :
    LRUCache α :=
  { max_size := max_size, default_ttl := default_ttl, cache := [] }

/-- `LRUCache.get`: absent key gives `none`; an expired entry is deleted as a
side effect and `none` returned; otherwise the entry is moved to the
most-recently-used end, its hit counter bumped, and its value returned. -/
def LRUCache.get (s : LRUCache α) (now : Nat) (key : String) :
    Option α × LRUCache α :=
  match s.cache.lookup key with
  | none => (none, s)
  | some entry =>
    if entry.is_expired now then
      (none, { s with cache := eraseKey key s.cache })
    else
      let bumped := { entry with hit_count := entry.hit_count + 1,
                                 last_accessed := some now }
      (some entry.value,
       { s with cache := eraseKey key s.cache ++ [(key, bumped)] })

/-- `LRUCache.set`: insert or overwrite at the most-recently-used end, then
evict the single oldest entry if the size now exceeds `max_size`. In the
source `ttl = ttl or self.default_ttl`, so both `None` and `0` select the
default. `del self.cache[oldest_key]` on the first (unique) key is dropping
the head of the list. -/
def LRUCache.set (s : LRUCache α) (now : Nat) (key : String) (value : α)
    (ttl : Option Nat := none) (case_status : String := "active") : LRUCache α :=
  let t := match ttl with
    | none => s.default_ttl
    | some v => if v = 0 then s.default_ttl else v
  let entry : CacheEntry α :=
    { key := key, value := value, created_at := now, expires_at := now + t,
      hit_count := 0, last_accessed := none, case_status := case_status }
  let c1 := eraseKey key s.cache ++ [(key, entry)]
  let c2 := if s.max_size < c1.length then c1.tail else c1
  { s with cache := c2 }

/-- `LRUCache.delete`. -/
def LRUCache.delete (s : LRUCache α) (key : String) : Bool × LRUCache α :=
  if (s.cache.lookup key).isSome then
    (true, { s with cache := eraseKey key s.cache })
  else
    (false, s)

/-- `LRUCache.clear`. -/
def LRUCache.clear (s : LRUCache α) : Nat × LRUCache α :=
  (s.cache.length, { s with cache := [] })

/-- The record returned by `LRUCache.get_stats`. -/
structure LRUStats where
  size : Nat
  max_size : Nat
  utilization : ℚ
  total_hits : Nat
  expired_entries : Nat
  default_ttl_seconds : Nat
  deriving DecidableEq, Repr

/-- `LRUCache.get_stats` (reads the clock to count expired entries). -/
def LRUCache.get_stats (s : LRUCache α) (now : Nat) : LRUStats :=
  { size := s.cache.length,
    max_size := s.max_size,
    utilization :=
      if s.max_size = 0 then 0 else (s.cache.length : ℚ) / (s.max_size : ℚ),
    total_hits := (s.cache.map (fun p => p.2.hit_count)).sum,
    expired_entries := (s.cache.filter (fun p => p.2.is_expired now)).length,
    default_ttl_seconds := s.default_ttl }

/-- The spec's example scenario: capacity 3, insert A, B, C. -/
def lruScenario : LRUCache Nat :=
  (((LRUCache.empty Nat 3 600).set 0 "A" 1 none "active").set 0 "B" 2 none
    "active").set 0 "C" 3 none "active"

/-- ... then read A and insert D. -/
def lruScenarioAfter : LRUCache Nat :=
  ((lruScenario.get 0 "A").2).set 0 "D" 4 none "active"

/-- A small cache holding two entries written at time 0 with the default
10-minute TTL (so both expire at time 600). -/
def ttlScenario : LRUCache Nat :=
  ((LRUCache.empty Nat 10 600).set 0 "k1" 41 none "active").set 0 "k2" 42
    none "active"

/-- The entry `ttlScenario` stores under "k1". -/
def ttlScenarioEntry : CacheEntry Nat :=
  { key := "k1", value := 41, created_at := 0, expires_at := 600,
    hit_count := 0, last_accessed := none, case_status := "active" }

/-! ## Tiered cache manager (src/core/cache_manager.py, class CacheManager)

The Redis and database tiers are the source's placeholder implementations:
reads return `None`, writes are no-ops, deletes return `False`. -/

/-- `CacheManager` TTL constants. -/
def MEMORY_TTL : Nat := 600

def ACTIVE_CASE_TTL : Nat := 3600

def CLOSED_CASE_TTL : Nat := 86400

/-- The `CacheManager.stats` counter dictionary. -/
structure CacheStats where
  memory_hits : Nat
  memory_misses : Nat
  redis_hits : Nat
  redis_misses : Nat
  db_hits : Nat
  db_misses : Nat
  total_sets : Nat
  total_deletes : Nat
  deriving DecidableEq, Repr

/-- All counters zero (`CacheManager.__init__` / `reset_stats`). -/
def CacheStats.zero : CacheStats :=
  { memory_hits := 0, memory_misses := 0, redis_hits := 0, redis_misses := 0,
    db_hits := 0, db_misses := 0, total_sets := 0, total_deletes := 0 }

/-- State of a `CacheManager`: tier enable flags, the fast tier (present when
`enable_memory_cache`), and the statistics counters. -/
structure CacheManager (α : Type) where
  enable_memory_cache : Bool
  enable_redis_cache : Bool
  enable_db_cache : Bool
  memory_cache : Option (LRUCache α)
  stats : CacheStats
  deriving DecidableEq, Repr

/-- A memory-only manager as built by `create_cache_manager` defaults. -/
def CacheManager.memoryOnly (α : Type) : CacheManager α :=
  { enable_memory_cache := true, enable_redis_cache := false,
    enable_db_cache := false,
    memory_cache := some (LRUCache.empty α 1000 MEMORY_TTL),
    stats := CacheStats.zero }

/-- Stand-in for `hashlib.md5(...).hexdigest()` (an external library): a
deterministic executable digest whose truncation to 8 characters below always
has exactly 8 characters, like the real hexdigest's. The key-collision
results below are also stated for an arbitrary digest function. -/
def md5Hex (s : String) : String :=
  ((Nat.toDigits 16
      (s.data.foldl (fun h c => (h * 131 + c.toNat) % (2 ^ 32)) 5381)).takeD
    8 '0').asString

/-- `CacheManager._generate_cache_key`, generic in the digest. In the source,
`if dimension:` is Python truthiness, so an empty-string dimension is not
appended. The digest of the `":"`-joined parts is truncated to 8 characters
and appended to a readable `context:{client}:{case}:{scope}:` namespace. -/
def generate_cache_key_with (digest : String → String)
    (client_id case_id scope : String) (dimension : Option String) : String :=
  let key_parts := [client_id, case_id, scope] ++
    (match dimension with
     | some d => if d = "" then [] else [d]
     | none => [])
  let key_string := String.intercalate ":" key_parts
  let key_hash := digest key_string
  -- `key_hash[:8]`: the first 8 characters of the digest.
  "context:" ++ client_id ++ ":" ++ case_id ++ ":" ++ scope ++ ":" ++
    String.mk (key_hash.data.take 8)

/-- `CacheManager._generate_cache_key` with the MD5 stand-in. -/
def generate_cache_key (client_id case_id scope : String)
    (dimension : Option String) : String :=
  generate_cache_key_with md5Hex client_id case_id scope dimension

/-- `CacheManager.get`: tiers fastest-first; the Redis and database
placeholders always miss. The fast-tier state is threaded through even on a
miss (an expired entry may have been purged). -/
def CacheManager.get (st : CacheManager α) (now : Nat)
    (client_id case_id scope : String) (dimension : Option String := none) :
    Option α × CacheManager α :=
  let cache_key := generate_cache_key client_id case_id scope dimension
  let (tier1, st1) :=
    match st.enable_memory_cache, st.memory_cache with
    | true, some mc =>
      let (v, mc') := mc.get now cache_key
      match v with
      | some value =>
        (some value,
         { st with memory_cache := some mc',
                   stats := { st.stats with
                              memory_hits := st.stats.memory_hits + 1 } })
      | none =>
        (none,
         { st with memory_cache := some mc',
                   stats := { st.stats with
                              memory_misses := st.stats.memory_misses + 1 } })
    | _, _ => (none, st)
  match tier1 with
  | some value => (some value, st1)
  | none =>
    -- Tier 2 (`_get_from_redis` returns None) and tier 3 (`_get_from_database`
    -- returns None): only the miss counters can move.
    let st2 := if st1.enable_redis_cache then
        { st1 with stats := { st1.stats with
                              redis_misses := st1.stats.redis_misses + 1 } }
      else st1
    let st3 := if st2.enable_db_cache then
        { st2 with stats := { st2.stats with
                              db_misses := st2.stats.db_misses + 1 } }
      else st2
    (none, st3)

/-- `CacheManager.set`: writes to every enabled tier (the fast tier with its
fixed `MEMORY_TTL`; the placeholder tiers are no-ops) and bumps `total_sets`.
The status-selected `redis_db_ttl` is computed as in the source but consumed
only by the placeholder tiers. -/
def CacheManager.set (st : CacheManager α) (now : Nat)
    (client_id case_id scope : String) (value : α)
    (case_status : String := "active") (dimension : Option String := none) :
    CacheManager α :=
  let cache_key := generate_cache_key client_id case_id scope dimension
  let _redis_db_ttl :=
    if case_status = "active" then ACTIVE_CASE_TTL else CLOSED_CASE_TTL
  let st1 :=
    match st.enable_memory_cache, st.memory_cache with
    | true, some mc =>
      let mc' := mc.set now cache_key value (some MEMORY_TTL) case_status
      { st with memory_cache := some mc' }
    | _, _ => st
  { st1 with stats := { st1.stats with total_sets := st1.stats.total_sets + 1 } }

/-- Delete the entry for one fully determined key from every enabled tier,
returning the number of tiers that removed something (the placeholder tiers
always report `False`). -/
def CacheManager.deleteOneKey (st : CacheManager α) (cache_key : String) :
    Nat × CacheManager α :=
  match st.enable_memory_cache, st.memory_cache with
  | true, some mc =>
    let (removed, mc') := mc.delete cache_key
    ((if removed then 1 else 0), { st with memory_cache := some mc' })
  | _, _ => (0, st)

/-- `CacheManager.delete`. `if scope:` is Python truthiness: `None` (and the
empty string) mean "delete the key for every known scope value". -/
def CacheManager.delete (st : CacheManager α) (client_id case_id : String)
    (scope : Option String := none) (dimension : Option String := none) :
    Nat × CacheManager α :=
  let scopedKeys : List String :=
    match scope with
    | some s =>
      if s = "" then
        ["minimal", "standard", "comprehensive"].map
          (fun sn => generate_cache_key client_id case_id sn dimension)
      else
        [generate_cache_key client_id case_id s dimension]
    | none =>
      ["minimal", "standard", "comprehensive"].map
        (fun sn => generate_cache_key client_id case_id sn dimension)
  let (deleted_count, st') := scopedKeys.foldl
    (fun (acc : Nat × CacheManager α) k =>
      let (n, s') := acc.2.deleteOneKey k
      (acc.1 + n, s'))
    (0, st)
  (deleted_count,
   { st' with stats := { st'.stats with
                         total_deletes := st'.stats.total_deletes + deleted_count } })

/-- `CacheManager.invalidate_case`: delegates to `delete` with no scope. -/
def CacheManager.invalidate_case (st : CacheManager α)
    (client_id case_id : String) : Nat × CacheManager α :=
  st.delete client_id case_id none none

/-! ## Dimension aggregator (src/core/context_builder.py, class ContextBuilder)

The five analyzers perform external I/O; one aggregation observes, for each
analyzer, either a returned context or a raised exception. That observation is
the `AnalyzerOutcomes` oracle below: `none` models "the coroutine raised"
(`asyncio.gather(..., return_exceptions=True)` hands the exception back). -/

/-- The outcome each analyzer would produce if invoked in this request. -/
structure AnalyzerOutcomes where
  who : Option WhoContext
  what : Option WhatContext
  whereDim : Option WhereContext
  whenDim : Option WhenContext
  why : Option WhyContext
  deriving DecidableEq, Repr

/-- `ContextBuilder._build_dimensions_parallel`: launch the analyzer of every
requested dimension, join all, and map exceptions to `None` results. The task
dict is built by five fixed membership tests, in the order WHO, WHAT, WHERE,
WHEN, WHY. -/
def build_dimensions_parallel (a : AnalyzerOutcomes) (dimensions : List String) :
    DimensionResults :=
  { who := if dimensions.contains "WHO" then some a.who else none,
    what := if dimensions.contains "WHAT" then some a.what else none,
    whereDim := if dimensions.contains "WHERE" then some a.whereDim else none,
    whenDim := if dimensions.contains "WHEN" then some a.whenDim else none,
    why := if dimensions.contains "WHY" then some a.why else none }

/-- `ContextBuilder._get_case_name`: first successful dimension (in dict
order) whose `case_name` is non-empty and differs from the
`"Case {case_id}"` placeholder; otherwise that placeholder. -/
def get_case_name (r : DimensionResults) (case_id : String) : String :=
  let fallback := "Case " ++ case_id
  let candidates := r.values.filterMap (fun o => o.map DimContext.caseName)
  match candidates.find? (fun n => ¬ n = "" ∧ ¬ n = fallback) with
  | some n => n
  | none => fallback

/-- `ContextResponse` (src/models/dimensions.py), restricted to the fields the
engine computes; `query_id`, wall-clock `execution_time_ms` and `timestamp`
are outside the model. -/
structure ContextResponse where
  case_id : String
  case_name : String
  who : Option WhoContext
  what : Option WhatContext
  whereDim : Option WhereContext
  whenDim : Option WhenContext
  why : Option WhyContext
  context_score : ℚ
  is_complete : Bool
  cached : Bool
  deriving DecidableEq, Repr

/-- `ContextBuilder.build_context` for one request. It returns the
`ValueError` or the response, paired with the cache manager state after the
request: cache pre-check (when `use_cache`), dimension selection, fan-out,
scoring, and the conditional write-through of a complete result. -/
def build_context (a : AnalyzerOutcomes) (st : CacheManager ContextResponse)
    (now : Nat) (client_id case_id : String) (scope : String := "comprehensive")
    (include_dimensions : Option (List String) := none) (use_cache : Bool := true) :
    Except String ContextResponse × CacheManager ContextResponse :=
  -- Cache check (before dimension validation in the source).
  let checked : Option ContextResponse × CacheManager ContextResponse :=
    if use_cache then st.get now client_id case_id scope none else (none, st)
  match checked with
  | (some cached_context, st1) =>
    (Except.ok { cached_context with cached := true }, st1)
  | (none, st1) =>
    match determine_dimensions scope include_dimensions with
    | Except.error e => (Except.error e, st1)
    | Except.ok dimensions_to_build =>
      let dimension_results := build_dimensions_parallel a dimensions_to_build
      let context_score := calculate_context_score dimension_results
      let is_complete : Bool := decide (COMPLETENESS_THRESHOLD ≤ context_score)
      let case_name := get_case_name dimension_results case_id
      let response : ContextResponse :=
        { case_id := case_id, case_name := case_name,
          who := dimension_results.who.getD none,
          what := dimension_results.what.getD none,
          whereDim := dimension_results.whereDim.getD none,
          whenDim := dimension_results.whenDim.getD none,
          why := dimension_results.why.getD none,
          context_score := context_score, is_complete := is_complete,
          cached := false }
      let st2 :=
        if is_complete && use_cache then
          st1.set now client_id case_id scope response "active" none
        else st1
      (Except.ok response, st2)

/-! ## Single-dimension quality (ContextBuilder.get_dimension_quality) -/

/-- `ContextBuilder._count_data_points`. -/
def count_data_points : DimContext → Nat
  | .whoCtx c =>
    c.parties.length + c.judges.length + c.attorneys.length + c.witnesses.length
  | .whatCtx c =>
    c.causes_of_action.length + c.legal_issues.length + c.statutes.length +
      c.case_citations.length
  | .whereCtx c =>
    if ¬ c.primary_jurisdiction = "" ∧ ¬ c.court = "" ∧ ¬ c.venue = "" then 3
    else 0
  | .whenCtx c =>
    c.timeline.length + c.upcoming_deadlines.length + c.past_deadlines.length
  | .whyCtx c =>
    c.legal_theories.length + c.supporting_precedents.length +
      c.opposing_precedents.length

/-- `DimensionQualityMetrics` (src/models/dimensions.py). -/
structure DimensionQualityMetrics where
  dimension_name : String
  completeness_score : ℚ
  data_points : Nat
  confidence_avg : ℚ
  is_sufficient : Bool
  deriving DecidableEq, Repr

/-- Constructing a `DimensionQualityMetrics` runs pydantic validation:
`completeness_score` and `confidence_avg` are constrained to [0, 1]
(`Field(ge=0.0, le=1.0)`), and the `is_sufficient` validator recomputes the
flag from `completeness_score >= 0.85`. Out-of-range fields raise. -/
def mkDimensionQualityMetrics (dimension_name : String)
    (completeness_score : ℚ) (data_points : Nat) (confidence_avg : ℚ) :
    Except String DimensionQualityMetrics :=
  if completeness_score < 0 ∨ 1 < completeness_score then
    Except.error "validation error: completeness_score must be in [0, 1]"
  else if confidence_avg < 0 ∨ 1 < confidence_avg then
    Except.error "validation error: confidence_avg must be in [0, 1]"
  else
    Except.ok { dimension_name := dimension_name,
                completeness_score := completeness_score,
                data_points := data_points,
                confidence_avg := confidence_avg,
                is_sufficient := decide (COMPLETENESS_THRESHOLD ≤ completeness_score) }

/-- The analyzer outcome for one dimension name, as `get_dimension_quality`
reads it through `analyzer_map` (a `none` outcome is a raise, which the method
propagates). Returns `none` for names outside the five. -/
def analyzer_result (a : AnalyzerOutcomes) : String → Option (Option DimContext)
  | "WHO" => some (a.who.map .whoCtx)
  | "WHAT" => some (a.what.map .whatCtx)
  | "WHERE" => some (a.whereDim.map .whereCtx)
  | "WHEN" => some (a.whenDim.map .whenCtx)
  | "WHY" => some (a.why.map .whyCtx)
  | _ => none

/-- `ContextBuilder.get_dimension_quality`: validate the (upper-cased) name,
re-invoke that one analyzer, score it, count its data points, and build the
pydantic metrics object. -/
def get_dimension_quality (a : AnalyzerOutcomes) (dimension_name : String) :
    Except String DimensionQualityMetrics :=
  let nameU := dimension_name.toUpper
  match analyzer_result a nameU with
  | none => Except.error ("Invalid dimension: " ++ nameU)
  | some outcome =>
    match outcome with
    | none => Except.error "analyzer raised"
    | some ctx =>
      let score := score_dimension ctx
      let data_points := count_data_points ctx
      mkDimensionQualityMetrics nameU score data_points (9/10)

/-- Analyzer outcomes in which every analyzer raises. -/
def noOutcomes : AnalyzerOutcomes :=
  { who := none, what := none, whereDim := none, whenDim := none, why := none }

/-- One build-composite request with an unknown scope, cache enabled, against
a fresh memory-only manager. -/
def invalidScopeRun : Except String ContextResponse × CacheManager ContextResponse :=
  build_context noOutcomes (CacheManager.memoryOnly ContextResponse) 0 "t1"
    "c1" "bogus" none true

/-- A memory-only manager holding one entry per scope for case ("t1", "c1"). -/
def threeScopeStore : CacheManager Nat :=
  (((CacheManager.memoryOnly Nat).set 0 "t1" "c1" "minimal" 1 "active"
      none).set 0 "t1" "c1" "standard" 2 "active" none).set 0 "t1" "c1"
    "comprehensive" 3 "active" none

/-! ## Analyzer-outcome accounting (for the partial-failure claim) -/

/-- Number of analyzers that would return (rather than raise). -/
def AnalyzerOutcomes.succCount (a : AnalyzerOutcomes) : Nat :=
  (if a.who.isSome then 1 else 0) + (if a.what.isSome then 1 else 0) +
    (if a.whereDim.isSome then 1 else 0) + (if a.whenDim.isSome then 1 else 0) +
    (if a.why.isSome then 1 else 0)

/-- `a'` returns the same result as `a` on every analyzer that succeeds in
`a` (and may succeed where `a` raises). -/
def agreesOnSuccesses (a a' : AnalyzerOutcomes) : Prop :=
  (a.who.isSome → a'.who = a.who) ∧ (a.what.isSome → a'.what = a.what) ∧
    (a.whereDim.isSome → a'.whereDim = a.whereDim) ∧
    (a.whenDim.isSome → a'.whenDim = a.whenDim) ∧
    (a.why.isSome → a'.why = a.why)

/-- Score of one analyzer outcome (a raise scores 0). -/
def optScore {α : Type} (o : Option α) (g : α → ℚ) : ℚ :=
  match o with
  | some c => g c
  | none => 0

/-- Total per-dimension score over all five analyzers of one outcome set. -/
def AnalyzerOutcomes.scoreSum (a : AnalyzerOutcomes) : ℚ :=
  optScore a.who score_who + optScore a.what score_what +
    optScore a.whereDim score_where + optScore a.whenDim score_when +
    optScore a.why score_why

/-- A WHEN context whose data-point count meets the documented target of 10
only partially (8 points) but which, like every `WhenContext`, carries a
filing date. -/
def whenOverTarget : WhenContext :=
  { case_id := "case-001", case_name := "Case case-001",
    filing_date := 1700000000,
    timeline := ["e1", "e2", "e3", "e4", "e5", "e6", "e7", "e8"],
    upcoming_deadlines := [], past_deadlines := [] }

/-- Analyzer outcomes in which only the WHEN analyzer returns, with the rich
WHEN context above. -/
def whenOnly : AnalyzerOutcomes :=
  { who := none, what := none, whereDim := none,
    whenDim := some whenOverTarget, why := none }

/-- Concrete analyzer outcomes for the partial-failure witness: WHY raises,
the rest return. -/
def fourOfFive : AnalyzerOutcomes :=
  { who := some { case_id := "c-9", case_name := "Acme v. Box",
                  parties := ["p1", "p2"], judges := ["j1"], attorneys := [],
                  witnesses := [] },
    what := some { case_id := "c-9", case_name := "Acme v. Box",
                   causes_of_action := ["negligence"], legal_issues := [],
                   statutes := [], case_citations := [] },
    whereDim := some { case_id := "c-9", case_name := "Acme v. Box",
                       primary_jurisdiction := "CA", court := "Sup. Ct.",
                       venue := "LA" },
    whenDim := some { case_id := "c-9", case_name := "Acme v. Box",
                      filing_date := 1000, timeline := ["filed"],
                      upcoming_deadlines := [], past_deadlines := [] },
    why := none }

/-- The same outcomes with the WHY analyzer succeeding. -/
def fiveOfFive : AnalyzerOutcomes :=
  { fourOfFive with
    why := some { case_id := "c-9", case_name := "Acme v. Box",
                  legal_theories := ["duty"], supporting_precedents := [],
                  opposing_precedents := [] } }

/-! ## Spec-side composite score

`spec_composite_score` transcribes the specification sentence "(mean of all
per-dimension scores, including absent-as-zero) × (successful-dimension-count
/ requested-dimension-count)", clamped to [0, 1], with 0.0 for an empty
request; it is compared with `calculate_context_score` from the source. -/

/-- Number of requested dimensions (dict keys). -/
def DimensionResults.requestedCount (r : DimensionResults) : Nat :=
  (if r.who.isSome then 1 else 0) + (if r.what.isSome then 1 else 0) +
    (if r.whereDim.isSome then 1 else 0) + (if r.whenDim.isSome then 1 else 0) +
    (if r.why.isSome then 1 else 0)

/-- 1 when the dimension was requested and its analyzer succeeded. -/
def succPiece {α : Type} : Option (Option α) → Nat
  | some (some _) => 1
  | _ => 0

/-- Number of successful dimensions. -/
def DimensionResults.successCount (r : DimensionResults) : Nat :=
  succPiece r.who + succPiece r.what + succPiece r.whereDim +
    succPiece r.whenDim + succPiece r.why

/-- Score contribution of one dimension (absent and failed both give 0). -/
def scorePiece {α : Type} (o : Option (Option α)) (g : α → ℚ) : ℚ :=
  match o with
  | some (some c) => g c
  | _ => 0

/-- Sum of the per-dimension scores over all requested dimensions. -/
def DimensionResults.specScoreSum (r : DimensionResults) : ℚ :=
  scorePiece r.who score_who + scorePiece r.what score_what +
    scorePiece r.whereDim score_where + scorePiece r.whenDim score_when +
    scorePiece r.why score_why

/-- The composite score as the specification words it. -/
def spec_composite_score (r : DimensionResults) : ℚ :=
  let n := r.requestedCount
  if n = 0 then 0
  else
    min 1 (max 0 ((r.specScoreSum / (n : ℚ)) * ((r.successCount : ℚ) / (n : ℚ))))

/-! ## Bridging lemmas: dict-values traversal vs per-field counting -/

theorem optValue_length {α : Type} (o : Option (Option α)) (f : α → DimContext) :
    (optValue o f).length = if o.isSome then 1 else 0 := by
  cases o <;> rfl

theorem optValue_filter_length {α : Type} (o : Option (Option α))
    (f : α → DimContext) :
    ((optValue o f).filter Option.isSome).length = succPiece o := by
  rcases o with _ | (_ | c) <;> rfl

theorem optValue_sum {α : Type} (o : Option (Option α)) (f : α → DimContext)
    (g : α → ℚ) (hg : ∀ c, score_dimension (f c) = g c) :
    ((optValue o f).map score_dimension_opt).sum = scorePiece o g := by
  rcases o with _ | (_ | c) <;>
    simp [optValue, score_dimension_opt, scorePiece, hg]

theorem values_length (r : DimensionResults) :
    r.values.length = r.requestedCount := by
  simp [DimensionResults.values, DimensionResults.requestedCount,
    optValue_length, Nat.add_assoc]

theorem values_filter_length (r : DimensionResults) :
    (r.values.filter Option.isSome).length = r.successCount := by
  simp [DimensionResults.values, DimensionResults.successCount,
    optValue_filter_length, Nat.add_assoc]

theorem values_sum (r : DimensionResults) :
    (r.values.map score_dimension_opt).sum = r.specScoreSum := by
  simp only [DimensionResults.values, List.map_append, List.sum_append,
    DimensionResults.specScoreSum,
    optValue_sum r.who .whoCtx score_who (fun _ => rfl),
    optValue_sum r.what .whatCtx score_what (fun _ => rfl),
    optValue_sum r.whereDim .whereCtx score_where (fun _ => rfl),
    optValue_sum r.whenDim .whenCtx score_when (fun _ => rfl),
    optValue_sum r.why .whyCtx score_why (fun _ => rfl)]

/-- The source's composite computation agrees with the specification formula
on every results dictionary. -/
theorem calculate_eq_spec (r : DimensionResults) :
    calculate_context_score r = spec_composite_score r := by
  simp only [calculate_context_score, spec_composite_score, values_length,
    values_filter_length, values_sum]

/-! ## Score range lemmas -/

theorem score_who_mem (c : WhoContext) : 0 ≤ score_who c ∧ score_who c ≤ 1 := by
  simp only [score_who]
  exact ⟨le_min (by norm_num) (by positivity), min_le_left _ _⟩

theorem score_what_mem (c : WhatContext) : 0 ≤ score_what c ∧ score_what c ≤ 1 := by
  simp only [score_what]
  exact ⟨le_min (by norm_num) (by positivity), min_le_left _ _⟩

theorem score_why_mem (c : WhyContext) : 0 ≤ score_why c ∧ score_why c ≤ 1 := by
  simp only [score_why]
  exact ⟨le_min (by norm_num) (by positivity), min_le_left _ _⟩

theorem score_where_mem (c : WhereContext) :
    0 ≤ score_where c ∧ score_where c ≤ 1 := by
  simp only [score_where]
  split_ifs <;> norm_num

theorem score_when_mem (c : WhenContext) :
    3/10 ≤ score_when c ∧ score_when c ≤ 13/10 := by
  simp only [score_when, if_true]
  have h0 : (0 : ℚ) ≤ min 1 ((
    (c.timeline.length + c.upcoming_deadlines.length +
      c.past_deadlines.length : Nat) : ℚ) / 10) :=
    le_min (by norm_num) (by positivity)
  have h1 : min 1 ((((c.timeline.length + c.upcoming_deadlines.length +
      c.past_deadlines.length : Nat) : ℚ)) / 10) ≤ 1 := min_le_left _ _
  constructor <;> linarith

/-- Every reachable per-dimension score is non-negative and at most 1.3
(1 for WHO/WHAT/WHERE/WHY, up to 1.3 for WHEN). -/
theorem score_dimension_mem (c : DimContext) :
    0 ≤ score_dimension c ∧ score_dimension c ≤ 13/10 := by
  cases c with
  | whoCtx c =>
    have h := score_who_mem c
    exact ⟨h.1, by simpa [score_dimension] using h.2.trans (by norm_num)⟩
  | whatCtx c =>
    have h := score_what_mem c
    exact ⟨h.1, by simpa [score_dimension] using h.2.trans (by norm_num)⟩
  | whereCtx c =>
    have h := score_where_mem c
    exact ⟨h.1, by simpa [score_dimension] using h.2.trans (by norm_num)⟩
  | whenCtx c =>
    have h := score_when_mem c
    exact ⟨le_trans (by norm_num) h.1, h.2⟩
  | whyCtx c =>
    have h := score_why_mem c
    exact ⟨h.1, by simpa [score_dimension] using h.2.trans (by norm_num)⟩

theorem score_dimension_opt_mem (o : Option DimContext) :
    0 ≤ score_dimension_opt o ∧ score_dimension_opt o ≤ 13/10 := by
  cases o with
  | none =>
    exact ⟨by norm_num [score_dimension_opt], by norm_num [score_dimension_opt]⟩
  | some c => exact score_dimension_mem c

theorem scorePiece_mem {α : Type} (o : Option (Option α)) (g : α → ℚ)
    (hg : ∀ c, 0 ≤ g c ∧ g c ≤ 13/10) :
    0 ≤ scorePiece o g ∧ scorePiece o g ≤ 13/10 := by
  rcases o with _ | (_ | c)
  · simp [scorePiece]; norm_num
  · simp [scorePiece]; norm_num
  · simpa [scorePiece] using hg c

/-! ## LRU cache lemmas -/

theorem eraseKey_of_not_mem {α : Type} (key : String)
    (l : List (String × CacheEntry α)) (h : key ∉ l.map Prod.fst) :
    eraseKey key l = l := by
  unfold eraseKey
  rw [List.filter_eq_self]
  intro p hp
  have hne : p.1 ≠ key := by
    intro e
    exact h (e ▸ List.mem_map_of_mem Prod.fst hp)
  simpa using hne

theorem keys_length (s : LRUCache α) : s.keys.length = s.cache.length := by
  simp [LRUCache.keys]

/-- Inserting a fresh key into a not-yet-full cache appends it at the
most-recently-used end without evicting. -/
theorem keys_set_fresh {α : Type} (s : LRUCache α) (now : Nat) (k : String)
    (v : α) (status : String) (hk : k ∉ s.keys)
    (hlen : s.cache.length < s.max_size) :
    (s.set now k v none status).keys = s.keys ++ [k] ∧
      (s.set now k v none status).cache.length = s.cache.length + 1 := by
  simp only [LRUCache.set, LRUCache.keys]
  rw [eraseKey_of_not_mem k s.cache hk]
  rw [if_neg (by simp only [List.length_append, List.length_cons,
    List.length_nil]; omega)]
  simp

/-- Folding fresh distinct inserts over a cache with enough room appends them
in order. -/
theorem keys_insert_fresh_all {α : Type} (now : Nat) (v : α) (status : String) :
    ∀ (ks : List String) (s : LRUCache α),
      (s.keys ++ ks).Nodup → s.cache.length + ks.length ≤ s.max_size →
      (ks.foldl (fun t k => t.set now k v none status) s).keys =
          s.keys ++ ks ∧
        (ks.foldl (fun t k => t.set now k v none status) s).cache.length =
          s.cache.length + ks.length ∧
        (ks.foldl (fun t k => t.set now k v none status) s).max_size =
          s.max_size := by
  intro ks
  induction ks with
  | nil => intro s h1 h2; simp
  | cons k t ih =>
    intro s h1 h2
    have hk : k ∉ s.keys := by
      rw [List.nodup_append] at h1
      exact fun hmem => h1.2.2 hmem (List.mem_cons_self k t)
    have hlen : s.cache.length < s.max_size := by
      simp only [List.length_cons] at h2
      omega
    obtain ⟨hkeys, hlen1⟩ := keys_set_fresh s now k v status hk hlen
    have hmax : (s.set now k v none status).max_size = s.max_size := rfl
    simp only [List.foldl_cons]
    obtain ⟨ih1, ih2, ih3⟩ := ih (s.set now k v none status)
      (by rw [hkeys, List.append_assoc, List.singleton_append]; exact h1)
      (by rw [hlen1, hmax]; simp only [List.length_cons] at h2; omega)
    refine ⟨?_, ?_, ?_⟩
    · rw [ih1, hkeys, List.append_assoc, List.singleton_append]
    · rw [ih2, hlen1]
      simp only [List.length_cons]
      omega
    · rw [ih3, hmax]

/-- Inserting a fresh key into a full cache evicts exactly the oldest
entry. -/
theorem keys_set_full_evicts {α : Type} (s : LRUCache α) (now : Nat)
    (k : String) (v : α) (status : String) (hk : k ∉ s.keys)
    (hfull : s.cache.length = s.max_size) (hpos : 0 < s.max_size) :
    (s.set now k v none status).keys = s.keys.tail ++ [k] := by
  simp only [LRUCache.set, LRUCache.keys]
  rw [eraseKey_of_not_mem k s.cache hk]
  rw [if_pos (by simp only [List.length_append, List.length_cons,
    List.length_nil]; omega)]
  cases hc : s.cache with
  | nil =>
    exfalso
    rw [hc] at hfull
    simp at hfull
    omega
  | cons p rest => simp

theorem lookup_eraseKey_self {α : Type} (key : String)
    (l : List (String × CacheEntry α)) :
    (eraseKey key l).lookup key = none := by
  induction l with
  | nil => rfl
  | cons p t ih =>
    by_cases h : p.1 = key
    · simpa [eraseKey, h] using ih
    · simpa [eraseKey, h, List.lookup_cons, beq_iff_eq, Ne.symm h] using ih

theorem length_eraseKey {α : Type} (key : String)
    (l : List (String × CacheEntry α)) (e : CacheEntry α)
    (hlk : l.lookup key = some e) (hnd : (l.map Prod.fst).Nodup) :
    (eraseKey key l).length + 1 = l.length := by
  induction l with
  | nil => simp at hlk
  | cons p t ih =>
    rcases List.nodup_cons.mp hnd with ⟨hp, hnd'⟩
    by_cases h : p.1 = key
    · have : eraseKey key (p :: t) = eraseKey key t := by simp [eraseKey, h]
      rw [this, eraseKey_of_not_mem key t (h ▸ hp)]
      simp
    · have herase : eraseKey key (p :: t) = p :: eraseKey key t := by
        simp [eraseKey, h]
      have hlk' : t.lookup key = some e := by
        rcases p with ⟨pk, pv⟩
        simp only [List.lookup_cons] at hlk
        have : (key == pk) = false := by
          simp only [beq_eq_false_iff_ne, ne_eq]
          exact fun e => h e.symm
        rwa [this] at hlk
      rw [herase]
      have := ih hlk' hnd'
      simp only [List.length_cons]
      omega

theorem lookup_append_or {α : Type} (key : String)
    (l₁ l₂ : List (String × CacheEntry α)) :
    (l₁ ++ l₂).lookup key = ((l₁.lookup key).or (l₂.lookup key)) := by
  induction l₁ with
  | nil => simp
  | cons p t ih =>
    rcases p with ⟨pk, pv⟩
    by_cases h : key = pk
    · simp [List.lookup_cons, h]
    · simp only [List.cons_append, List.lookup_cons]
      have hb : (key == pk) = false := by simpa using h
      rw [hb]
      exact ih

/-! ## Cache-key structure lemmas -/

/-- Splitting at the first separator is unambiguous when neither left part
contains it. -/
theorem append_sep_inj : ∀ (a1 a2 : List Char) {b1 b2 : List Char},
    ':' ∉ a1 → ':' ∉ a2 → a1 ++ ':' :: b1 = a2 ++ ':' :: b2 →
    a1 = a2 ∧ b1 = b2 := by
  intro a1
  induction a1 with
  | nil =>
    intro a2 b1 b2 h1 h2 h
    cases a2 with
    | nil => simpa using h
    | cons c t =>
      exfalso
      simp only [List.nil_append, List.cons_append, List.cons.injEq] at h
      exact h2 (h.1 ▸ List.mem_cons_self c t)
  | cons c t ih =>
    intro a2 b1 b2 h1 h2 h
    cases a2 with
    | nil =>
      exfalso
      simp only [List.cons_append, List.nil_append, List.cons.injEq] at h
      exact h1 (h.1 ▸ List.mem_cons_self c t)
    | cons c' t' =>
      simp only [List.cons_append, List.cons.injEq] at h
      obtain ⟨hc, ht⟩ := h
      have ht' := ih t' (fun hm => h1 (List.mem_cons_of_mem c hm))
        (fun hm => h2 (List.mem_cons_of_mem c' hm)) ht
      exact ⟨by rw [hc, ht'.1], ht'.2⟩

/-- The generated key, as a character list, is the `"context"` namespace and
the three identifying fields joined by `':'`, followed by the truncated
digest. -/
theorem generate_cache_key_with_data (digest : String → String)
    (c k s : String) (d : Option String) :
    ∃ h : String, (generate_cache_key_with digest c k s d).data =
      ("context" : String).data ++ ':' ::
        (c.data ++ ':' :: (k.data ++ ':' :: (s.data ++ ':' :: h.data))) := by
  refine ⟨String.mk ((digest (String.intercalate ":" ([c, k, s] ++
    (match d with
     | some x => if x = "" then [] else [x]
     | none => [])))).data.take 8), ?_⟩
  have h1 : ("context:" : String).data = ("context" : String).data ++ [':'] :=
    rfl
  have h2 : ((":" : String)).data = [':'] := rfl
  simp [generate_cache_key_with, String.data_append, h1, h2, List.append_assoc]

/-- For a fixed digest and dimension argument, distinct delimiter-free
(tenant, case, scope) triples generate distinct keys. -/
theorem cache_key_inj_of_no_delim (digest : String → String)
    (d : Option String) (c1 k1 s1 c2 k2 s2 : String)
    (hc1 : ':' ∉ c1.data) (hk1 : ':' ∉ k1.data) (hs1 : ':' ∉ s1.data)
    (hc2 : ':' ∉ c2.data) (hk2 : ':' ∉ k2.data) (hs2 : ':' ∉ s2.data)
    (h : generate_cache_key_with digest c1 k1 s1 d =
      generate_cache_key_with digest c2 k2 s2 d) :
    c1 = c2 ∧ k1 = k2 ∧ s1 = s2 := by
  obtain ⟨h1s, e1⟩ := generate_cache_key_with_data digest c1 k1 s1 d
  obtain ⟨h2s, e2⟩ := generate_cache_key_with_data digest c2 k2 s2 d
  have hd : ("context" : String).data ++ ':' ::
      (c1.data ++ ':' :: (k1.data ++ ':' :: (s1.data ++ ':' :: h1s.data))) =
      ("context" : String).data ++ ':' ::
      (c2.data ++ ':' :: (k2.data ++ ':' :: (s2.data ++ ':' :: h2s.data))) := by
    rw [← e1, ← e2, h]
  have hctx : ':' ∉ ("context" : String).data := by decide
  obtain ⟨-, hd1⟩ := append_sep_inj _ _ hctx hctx hd
  obtain ⟨hc, hd2⟩ := append_sep_inj _ _ hc1 hc2 hd1
  obtain ⟨hk, hd3⟩ := append_sep_inj _ _ hk1 hk2 hd2
  obtain ⟨hs, -⟩ := append_sep_inj _ _ hs1 hs2 hd3
  exact ⟨String.ext hc, String.ext hk, String.ext hs⟩

/-! ## Analyzer-outcome accounting lemmas -/

theorem succPiece_some {α : Type} (o : Option α) :
    succPiece (some o) = if o.isSome then 1 else 0 := by
  cases o <;> rfl

theorem scorePiece_some {α : Type} (o : Option α) (g : α → ℚ) :
    scorePiece (some o) g = optScore o g := by
  cases o <;> rfl

theorem optScore_nonneg {α : Type} (o : Option α) (g : α → ℚ)
    (hg : ∀ c, 0 ≤ g c) : 0 ≤ optScore o g := by
  cases o with
  | none => simp [optScore]
  | some c => simpa [optScore] using hg c

theorem optScore_le_ind {α : Type} (o : Option α) (g : α → ℚ)
    (hg : ∀ c, g c ≤ 13/10) :
    optScore o g ≤ (if o.isSome then (1 : ℚ) else 0) * (13/10) := by
  cases o with
  | none => simp [optScore]
  | some c => simpa [optScore] using hg c

theorem optScore_mono {α : Type} (o o' : Option α) (g : α → ℚ)
    (h : o.isSome → o' = o) (hg : ∀ c, 0 ≤ g c) :
    optScore o g ≤ optScore o' g := by
  cases o with
  | none => simpa [optScore] using optScore_nonneg o' g hg
  | some c => rw [h rfl]

theorem score_who_nonneg (c : WhoContext) : 0 ≤ score_who c :=
  (score_who_mem c).1

theorem score_what_nonneg (c : WhatContext) : 0 ≤ score_what c :=
  (score_what_mem c).1

theorem score_where_nonneg (c : WhereContext) : 0 ≤ score_where c :=
  (score_where_mem c).1

theorem score_when_nonneg (c : WhenContext) : 0 ≤ score_when c :=
  le_trans (by norm_num) (score_when_mem c).1

theorem score_why_nonneg (c : WhyContext) : 0 ≤ score_why c :=
  (score_why_mem c).1

theorem scoreSum_nonneg (a : AnalyzerOutcomes) : 0 ≤ a.scoreSum := by
  have h1 := optScore_nonneg a.who score_who score_who_nonneg
  have h2 := optScore_nonneg a.what score_what score_what_nonneg
  have h3 := optScore_nonneg a.whereDim score_where score_where_nonneg
  have h4 := optScore_nonneg a.whenDim score_when score_when_nonneg
  have h5 := optScore_nonneg a.why score_why score_why_nonneg
  unfold AnalyzerOutcomes.scoreSum
  linarith

/-- The total score is bounded by 1.3 per succeeding analyzer. -/
theorem scoreSum_le (a : AnalyzerOutcomes) :
    a.scoreSum ≤ (a.succCount : ℚ) * (13/10) := by
  have h1 := optScore_le_ind a.who score_who
    (fun c => le_trans (score_who_mem c).2 (by norm_num))
  have h2 := optScore_le_ind a.what score_what
    (fun c => le_trans (score_what_mem c).2 (by norm_num))
  have h3 := optScore_le_ind a.whereDim score_where
    (fun c => le_trans (score_where_mem c).2 (by norm_num))
  have h4 := optScore_le_ind a.whenDim score_when (fun c => (score_when_mem c).2)
  have h5 := optScore_le_ind a.why score_why
    (fun c => le_trans (score_why_mem c).2 (by norm_num))
  unfold AnalyzerOutcomes.scoreSum
  unfold AnalyzerOutcomes.succCount
  push_cast
  split_ifs at * <;> linarith

theorem scoreSum_mono (a a' : AnalyzerOutcomes) (h : agreesOnSuccesses a a') :
    a.scoreSum ≤ a'.scoreSum := by
  obtain ⟨hw, ht, hr, hn, hy⟩ := h
  have h1 := optScore_mono a.who a'.who score_who hw score_who_nonneg
  have h2 := optScore_mono a.what a'.what score_what ht score_what_nonneg
  have h3 := optScore_mono a.whereDim a'.whereDim score_where hr score_where_nonneg
  have h4 := optScore_mono a.whenDim a'.whenDim score_when hn score_when_nonneg
  have h5 := optScore_mono a.why a'.why score_why hy score_why_nonneg
  unfold AnalyzerOutcomes.scoreSum
  linarith

/-- Five succeeding analyzers include a WHEN result, whose score is at least
0.3 (the filing-date boost), so the total score is positive. -/
theorem scoreSum_pos_of_all (a : AnalyzerOutcomes) (h : a.succCount = 5) :
    0 < a.scoreSum := by
  have hwhen : a.whenDim.isSome := by
    rcases hwd : a.whenDim with _ | c
    · exfalso
      unfold AnalyzerOutcomes.succCount at h
      rw [hwd] at h
      have e1 : (if a.who.isSome then 1 else 0) ≤ 1 := by split <;> omega
      have e2 : (if a.what.isSome then 1 else 0) ≤ 1 := by split <;> omega
      have e3 : (if a.whereDim.isSome then 1 else 0) ≤ 1 := by split <;> omega
      have e5 : (if a.why.isSome then 1 else 0) ≤ 1 := by split <;> omega
      simp only [Option.isSome_none, Bool.false_eq_true, if_false] at h
      omega
    · rfl
  rcases hwd : a.whenDim with _ | c
  · rw [hwd] at hwhen; simp at hwhen
  · have h1 := optScore_nonneg a.who score_who score_who_nonneg
    have h2 := optScore_nonneg a.what score_what score_what_nonneg
    have h3 := optScore_nonneg a.whereDim score_where score_where_nonneg
    have h5 := optScore_nonneg a.why score_why score_why_nonneg
    have h4 : 3/10 ≤ optScore a.whenDim score_when := by
      rw [hwd]
      simpa [optScore] using (score_when_mem c).1
    unfold AnalyzerOutcomes.scoreSum
    linarith

/-- Core strictness: dropping one of five dimensions multiplies the mean by
4/5, which is strictly below the five-success composite whenever the latter's
total score is positive. -/
theorem composite_strict_mono {x z : ℚ} (hx0 : 0 ≤ x) (hx : x ≤ 26/5)
    (hxz : x ≤ z) (hz : 0 < z) :
    min 1 (max 0 (x / 5 * (4 / 5))) < min 1 (max 0 (z / 5 * (5 / 5))) := by
  have hL1 : max 0 (x / 5 * (4 / 5)) = x / 5 * (4 / 5) :=
    max_eq_right (by positivity)
  have hL2 : x / 5 * (4 / 5) ≤ 104/125 := by linarith
  have hLlt : x / 5 * (4 / 5) < 1 := by linarith
  have hL : min 1 (max 0 (x / 5 * (4 / 5))) = x / 5 * (4 / 5) := by
    rw [hL1]; exact min_eq_right hLlt.le
  rw [hL]
  rcases le_or_lt 1 (z / 5 * (5 / 5)) with h | h
  · have hR1 : max 0 (z / 5 * (5 / 5)) = z / 5 * (5 / 5) := by
      refine max_eq_right ?_
      linarith
    rw [hR1, min_eq_left h]
    exact hLlt
  · have hR1 : max 0 (z / 5 * (5 / 5)) = z / 5 * (5 / 5) :=
      max_eq_right (by positivity)
    rw [hR1, min_eq_right (by linarith)]
    nlinarith

/-! ## Claim theorems -/

/-- C1: the claim (every per-dimension score lies in [0, 1], and in
particular the WHEN score saturates at 1.0) is the documented intent
(`_score_dimension`'s docstring, the `DimensionQualityMetrics` bound and the
unit tests all say 0.0–1.0), but the code's WHEN branch adds the 0.3
filing-date boost after clamping: at 8 timeline events it returns 1.1 > 1. -/
theorem when_score_exceeds_one :
    score_dimension (.whenCtx whenOverTarget) = 11/10 ∧
      (1 : ℚ) < score_dimension (.whenCtx whenOverTarget) := by
  constructor <;> norm_num [score_dimension, score_when, whenOverTarget, min_def]

/-- C2: the composite score equals (mean of per-dimension scores with absent
counted as 0) × (successful / requested), clamped to [0, 1]; an empty request
scores 0.0; and a freshly built response's `is_complete` flag holds exactly
when the composite score reaches the 0.85 threshold. -/
theorem composite_score_matches_spec :
    (∀ r : DimensionResults, calculate_context_score r = spec_composite_score r) ∧
    (∀ r : DimensionResults,
      r.requestedCount = 0 → calculate_context_score r = 0) ∧
    (∀ (a : AnalyzerOutcomes) (st : CacheManager ContextResponse) (now : Nat)
      (client_id case_id scope : String) (incl : Option (List String))
      (resp : ContextResponse) (st' : CacheManager ContextResponse),
      build_context a st now client_id case_id scope incl false =
        (Except.ok resp, st') →
      (resp.is_complete = true ↔ COMPLETENESS_THRESHOLD ≤ resp.context_score)) := by
  refine ⟨calculate_eq_spec, ?_, ?_⟩
  · intro r h
    rw [calculate_eq_spec, spec_composite_score]
    simp [h]
  · intro a st now client_id case_id scope incl resp st' h
    simp only [build_context, Bool.false_eq_true, if_false] at h
    rcases hdet : determine_dimensions scope incl with e | dims <;> rw [hdet] at h
    · simp at h
    · simp only [Prod.mk.injEq, Except.ok.injEq] at h
      rcases h with ⟨hresp, -⟩
      rw [← hresp]
      simp [decide_eq_true_iff]

/-- Witness for C2 at a concrete input: an empty dictionary scores 0, and a
concrete minimal-scope build with both analyzers failing yields a response
whose flag matches the threshold comparison. -/
theorem composite_score_matches_spec_witness :
    calculate_context_score
      { who := none, what := none, whereDim := none, whenDim := none,
        why := none } = 0 ∧
    ((({ case_id := "c-1", case_name := "Case c-1", who := none, what := none,
         whereDim := none, whenDim := none, why := none, context_score := 0,
         is_complete := false, cached := false } : ContextResponse).is_complete
        = true) ↔
      COMPLETENESS_THRESHOLD ≤
        ({ case_id := "c-1", case_name := "Case c-1", who := none,
           what := none, whereDim := none, whenDim := none, why := none,
           context_score := 0, is_complete := false,
           cached := false } : ContextResponse).context_score) := by
  constructor
  · exact composite_score_matches_spec.2.1 _ (by decide)
  · refine composite_score_matches_spec.2.2
      { who := none, what := none, whereDim := none, whenDim := none,
        why := none }
      (CacheManager.memoryOnly ContextResponse) 0 "t-1" "c-1" "minimal" none
      _ (CacheManager.memoryOnly ContextResponse) ?_
    have h1 : determine_dimensions "minimal" none = Except.ok ["WHO", "WHERE"] := by
      decide
    have h3 : build_dimensions_parallel
        { who := none, what := none, whereDim := none, whenDim := none,
          why := none } ["WHO", "WHERE"] =
        { who := some none, what := none, whereDim := some none,
          whenDim := none, why := none } := rfl
    have h2 : calculate_context_score
        { who := some none, what := none, whereDim := some none,
          whenDim := none, why := none } = 0 := by
      rw [calculate_eq_spec]
      norm_num [spec_composite_score, DimensionResults.requestedCount,
        DimensionResults.specScoreSum, DimensionResults.successCount,
        succPiece, scorePiece]
    have h5 : (decide (COMPLETENESS_THRESHOLD ≤ (0 : ℚ))) = false := by
      norm_num [COMPLETENESS_THRESHOLD]
    simp only [build_context, Bool.false_eq_true, if_false, h1, h3, h2, h5,
      Bool.false_and, Bool.and_false]
    rfl

/-- The composite of a full five-dimension request, in terms of the analyzer
outcomes. -/
theorem composite_of_full_request (b : AnalyzerOutcomes) :
    calculate_context_score (build_dimensions_parallel b VALID_DIMENSIONS) =
      min 1 (max 0 ((b.scoreSum / 5) * ((b.succCount : ℚ) / 5))) := by
  rw [calculate_eq_spec]
  have hb : build_dimensions_parallel b VALID_DIMENSIONS =
      { who := some b.who, what := some b.what, whereDim := some b.whereDim,
        whenDim := some b.whenDim, why := some b.why } := rfl
  rw [hb, spec_composite_score]
  simp only [DimensionResults.requestedCount, DimensionResults.successCount,
    DimensionResults.specScoreSum, Option.isSome_some, if_true,
    succPiece_some, scorePiece_some, AnalyzerOutcomes.succCount,
    AnalyzerOutcomes.scoreSum]
  norm_num

/-- C3: with five requested dimensions, one raising analyzer and four
returning ones, the aggregation still returns a composite, with exactly the
four successful dimensions populated and the failed one absent, and its score
is strictly below what the same aggregation would score with the fifth
analyzer succeeding, whatever it would have returned. -/
theorem one_failure_keeps_siblings_and_lowers_score
    (a a' : AnalyzerOutcomes) (st : CacheManager ContextResponse) (now : Nat)
    (client_id case_id : String) (h4 : a.succCount = 4)
    (h5 : a'.succCount = 5) (hagree : agreesOnSuccesses a a') :
    ∃ resp resp' : ContextResponse,
      build_context a st now client_id case_id "comprehensive" none false =
        (Except.ok resp, st) ∧
      build_context a' st now client_id case_id "comprehensive" none false =
        (Except.ok resp', st) ∧
      resp.who = a.who ∧ resp.what = a.what ∧ resp.whereDim = a.whereDim ∧
      resp.whenDim = a.whenDim ∧ resp.why = a.why ∧
      resp.context_score < resp'.context_score := by
  have hdet : determine_dimensions "comprehensive" none =
      Except.ok VALID_DIMENSIONS := by decide
  have hbuild : ∀ b : AnalyzerOutcomes,
      build_context b st now client_id case_id "comprehensive" none false =
        (Except.ok
          { case_id := case_id,
            case_name :=
              get_case_name (build_dimensions_parallel b VALID_DIMENSIONS)
                case_id,
            who := b.who, what := b.what, whereDim := b.whereDim,
            whenDim := b.whenDim, why := b.why,
            context_score :=
              calculate_context_score
                (build_dimensions_parallel b VALID_DIMENSIONS),
            is_complete :=
              decide (COMPLETENESS_THRESHOLD ≤
                calculate_context_score
                  (build_dimensions_parallel b VALID_DIMENSIONS)),
            cached := false }, st) := by
    intro b
    simp only [build_context, Bool.false_eq_true, if_false, hdet,
      Bool.and_false]
    rfl
  refine ⟨_, _, hbuild a, hbuild a', rfl, rfl, rfl, rfl, rfl, ?_⟩
  show calculate_context_score (build_dimensions_parallel a VALID_DIMENSIONS) <
    calculate_context_score (build_dimensions_parallel a' VALID_DIMENSIONS)
  rw [composite_of_full_request a, composite_of_full_request a', h4, h5]
  have hx : a.scoreSum ≤ 26/5 := by
    have h := scoreSum_le a
    rw [h4] at h
    norm_num at h
    linarith
  have hgoal := composite_strict_mono (scoreSum_nonneg a) hx
    (scoreSum_mono a a' hagree) (scoreSum_pos_of_all a' h5)
  simpa using hgoal

/-- Witness for C3 at the concrete outcomes `fourOfFive` and `fiveOfFive`. -/
theorem one_failure_keeps_siblings_and_lowers_score_witness :
    ∃ resp resp' : ContextResponse,
      build_context fourOfFive (CacheManager.memoryOnly ContextResponse) 0
          "t-9" "c-9" "comprehensive" none false =
        (Except.ok resp, CacheManager.memoryOnly ContextResponse) ∧
      build_context fiveOfFive (CacheManager.memoryOnly ContextResponse) 0
          "t-9" "c-9" "comprehensive" none false =
        (Except.ok resp', CacheManager.memoryOnly ContextResponse) ∧
      resp.who = fourOfFive.who ∧ resp.what = fourOfFive.what ∧
      resp.whereDim = fourOfFive.whereDim ∧
      resp.whenDim = fourOfFive.whenDim ∧ resp.why = fourOfFive.why ∧
      resp.context_score < resp'.context_score :=
  one_failure_keeps_siblings_and_lowers_score fourOfFive fiveOfFive
    (CacheManager.memoryOnly ContextResponse) 0 "t-9" "c-9" (by decide)
    (by decide)
    ⟨fun _ => rfl, fun _ => rfl, fun _ => rfl, fun _ => rfl, by decide⟩

/-- C8: the three scope presets select strictly nested dimension sets of
sizes 2, 4 and 5, and `comprehensive` is the full five-dimension set. -/
theorem scope_dimension_sets_strictly_nested :
    determine_dimensions "minimal" none = Except.ok ["WHO", "WHERE"] ∧
    determine_dimensions "standard" none =
      Except.ok ["WHO", "WHAT", "WHERE", "WHEN"] ∧
    determine_dimensions "comprehensive" none = Except.ok VALID_DIMENSIONS ∧
    (∀ d ∈ ["WHO", "WHERE"], d ∈ ["WHO", "WHAT", "WHERE", "WHEN"]) ∧
    (∀ d ∈ ["WHO", "WHAT", "WHERE", "WHEN"], d ∈ VALID_DIMENSIONS) ∧
    ("WHAT" ∉ ["WHO", "WHERE"]) ∧ ("WHY" ∉ ["WHO", "WHAT", "WHERE", "WHEN"]) ∧
    (["WHO", "WHERE"].length = 2 ∧
      ["WHO", "WHAT", "WHERE", "WHEN"].length = 4 ∧ VALID_DIMENSIONS.length = 5) := by
  decide

/-- C4: for capacity C, inserting C+1 distinct keys into an empty fast-tier
cache with no intervening reads evicts exactly the first-inserted key (the
survivors are the later C keys in insertion order); and reading a key marks
it most-recently-used, so in the capacity-3 scenario insert A, B, C; read A;
insert D evicts exactly B, leaving C, A, D in recency order. -/
theorem lru_eviction_order :
    (∀ (α : Type) (C d now : Nat) (v : α) (status : String)
      (ks : List String), 0 < C → ks.length = C + 1 → ks.Nodup →
      (ks.foldl (fun t k => t.set now k v none status)
        (LRUCache.empty α C d)).keys = ks.drop 1) ∧
    (lruScenarioAfter.keys = ["C", "A", "D"] ∧
      "B" ∉ lruScenarioAfter.keys) := by
  constructor
  · intro α C d now v status ks hC hlen hnd
    have hne : ks ≠ [] := by
      intro e
      rw [e] at hlen
      simp at hlen
    obtain ⟨l, kl, hks⟩ : ∃ l kl, ks = l ++ [kl] :=
      ⟨ks.dropLast, ks.getLast hne, (List.dropLast_append_getLast hne).symm⟩
    subst hks
    have hllen : l.length = C := by
      simp only [List.length_append, List.length_cons, List.length_nil] at hlen
      omega
    rw [List.foldl_append]
    simp only [List.foldl_cons, List.foldl_nil]
    obtain ⟨hkeys, hclen, hmax⟩ := keys_insert_fresh_all now v status l
      (LRUCache.empty α C d)
      (by
        have : (LRUCache.empty α C d).keys = [] := rfl
        rw [this, List.nil_append]
        exact (List.nodup_append.mp hnd).1)
      (by
        have h0 : (LRUCache.empty α C d).cache.length = 0 := rfl
        have hm : (LRUCache.empty α C d).max_size = C := rfl
        rw [h0, hm, hllen]
        omega)
    have hkl : kl ∉ (l.foldl (fun t k => t.set now k v none status)
        (LRUCache.empty α C d)).keys := by
      rw [hkeys]
      have hdisj := (List.nodup_append.mp hnd).2.2
      intro hmem
      rcases List.mem_append.mp hmem with hmem | hmem
      · simp [LRUCache.keys, LRUCache.empty] at hmem
      · exact hdisj hmem (List.mem_singleton.mpr rfl)
    have hfull : (l.foldl (fun t k => t.set now k v none status)
        (LRUCache.empty α C d)).cache.length =
        (l.foldl (fun t k => t.set now k v none status)
          (LRUCache.empty α C d)).max_size := by
      rw [hclen, hmax]
      have h0 : (LRUCache.empty α C d).cache.length = 0 := rfl
      have hm : (LRUCache.empty α C d).max_size = C := rfl
      rw [h0, hm, hllen]
      omega
    have hpos : 0 < (l.foldl (fun t k => t.set now k v none status)
        (LRUCache.empty α C d)).max_size := by
      rw [hmax]
      exact hC
    rw [keys_set_full_evicts _ now kl v status hkl hfull hpos, hkeys]
    have hlne : l ≠ [] := by
      intro e
      rw [e] at hllen
      simp at hllen
      omega
    rw [show (LRUCache.empty α C d).keys = [] from rfl, List.nil_append]
    rw [List.drop_append_of_le_length (by omega), ← List.drop_one]
  · constructor
    · decide
    · decide

/-- C5: reading a key whose entry has expired returns absent and removes the
entry (the reported size drops by one); reading a present, unexpired key
returns the stored value unchanged, bumps its hit counter, stamps the access
time and moves it to the most-recently-used end, leaving the size
unchanged. -/
theorem lru_get_ttl_and_mru (α : Type) (s : LRUCache α) (now : Nat)
    (key : String) (e : CacheEntry α) (hlk : s.cache.lookup key = some e)
    (hnd : s.keys.Nodup) :
    (e.is_expired now = true →
      (s.get now key).1 = none ∧
      (s.get now key).2.cache.lookup key = none ∧
      ((s.get now key).2.get_stats now).size + 1 = (s.get_stats now).size) ∧
    (e.is_expired now = false →
      (s.get now key).1 = some e.value ∧
      (s.get now key).2.cache.lookup key =
        some { e with hit_count := e.hit_count + 1,
                      last_accessed := some now } ∧
      (s.get now key).2.keys.getLast? = some key ∧
      ((s.get now key).2.get_stats now).size = (s.get_stats now).size) := by
  have hnd' : (s.cache.map Prod.fst).Nodup := hnd
  constructor
  · intro hexp
    have hget : s.get now key =
        (none, { s with cache := eraseKey key s.cache }) := by
      simp only [LRUCache.get, hlk, hexp, if_true]
    rw [hget]
    refine ⟨rfl, lookup_eraseKey_self key s.cache, ?_⟩
    show (eraseKey key s.cache).length + 1 = s.cache.length
    exact length_eraseKey key s.cache e hlk hnd'
  · intro hexp
    have hget : s.get now key =
        (some e.value,
          { s with cache := eraseKey key s.cache ++
              [(key, { e with hit_count := e.hit_count + 1,
                              last_accessed := some now })] }) := by
      simp only [LRUCache.get, hlk, hexp, Bool.false_eq_true, if_false]
    rw [hget]
    refine ⟨rfl, ?_, ?_, ?_⟩
    · rw [lookup_append_or, lookup_eraseKey_self]
      simp [List.lookup_cons]
    · show ((eraseKey key s.cache ++ [_]).map Prod.fst).getLast? = some key
      rw [List.map_append]
      simp [List.getLast?_concat]
    · show (eraseKey key s.cache ++ [_]).length = s.cache.length
      rw [List.length_append]
      have := length_eraseKey key s.cache e hlk hnd'
      simp only [List.length_cons, List.length_nil]
      omega

/-- Witness for C5: reading "k1" from the concrete two-entry cache after its
expiry (time 700) removes it; reading at time 100 returns 41 and bumps the
entry. -/
theorem lru_get_ttl_and_mru_witness :
    ((ttlScenario.get 700 "k1").1 = none ∧
      (ttlScenario.get 700 "k1").2.cache.lookup "k1" = none ∧
      ((ttlScenario.get 700 "k1").2.get_stats 700).size + 1 =
        (ttlScenario.get_stats 700).size) ∧
    ((ttlScenario.get 100 "k1").1 = some 41 ∧
      (ttlScenario.get 100 "k1").2.cache.lookup "k1" =
        some { ttlScenarioEntry with hit_count := ttlScenarioEntry.hit_count + 1,
                                     last_accessed := some 100 } ∧
      (ttlScenario.get 100 "k1").2.keys.getLast? = some "k1" ∧
      ((ttlScenario.get 100 "k1").2.get_stats 100).size =
        (ttlScenario.get_stats 100).size) := by
  constructor
  · exact (lru_get_ttl_and_mru Nat ttlScenario 700 "k1" ttlScenarioEntry
      (by decide) (by decide)).1 (by decide)
  · exact (lru_get_ttl_and_mru Nat ttlScenario 100 "k1" ttlScenarioEntry
      (by decide) (by decide)).2 (by decide)

/-- Witness for C4's general part: capacity 2, keys a, b, c; a is evicted. -/
theorem lru_eviction_order_witness :
    (["a", "b", "c"].foldl (fun t k => t.set 0 k 7 none "active")
      (LRUCache.empty Nat 2 600)).keys = ["a", "b", "c"].drop 1 :=
  lru_eviction_order.1 Nat 2 600 0 7 "active" ["a", "b", "c"] (by decide)
    (by decide) (by decide)

/-- C6 counterexample: two argument tuples that differ in the tenant and case
fields produce the same cache key when the fields contain the `':'` join
delimiter, because the readable prefix and the digested join both coincide
(for any digest). The claim's "differing inputs never collide" is false. -/
theorem cache_key_collision :
    ("a:b", "c") ≠ (("a", "b:c") : String × String) ∧
    generate_cache_key "a:b" "c" "minimal" none =
      generate_cache_key "a" "b:c" "minimal" none := by
  constructor
  · decide
  · rfl

/-- C6 amended: key generation is deterministic, and two tuples with the same
dimension argument whose tenant, case and scope fields are free of the `':'`
delimiter generate different keys whenever any of those three fields differs
(for every digest function); fields containing `':'` can collide, and tuples
differing only in the dimension are separated only as far as the truncated
digest separates them. -/
theorem cache_key_deterministic_and_injective :
    (∀ (digest : String → String) (c k s : String) (d : Option String),
      generate_cache_key_with digest c k s d =
        generate_cache_key_with digest c k s d) ∧
    (∀ (digest : String → String) (d : Option String)
      (c1 k1 s1 c2 k2 s2 : String),
      ':' ∉ c1.data → ':' ∉ k1.data → ':' ∉ s1.data →
      ':' ∉ c2.data → ':' ∉ k2.data → ':' ∉ s2.data →
      ¬ (c1 = c2 ∧ k1 = k2 ∧ s1 = s2) →
      generate_cache_key_with digest c1 k1 s1 d ≠
        generate_cache_key_with digest c2 k2 s2 d) := by
  refine ⟨fun _ _ _ _ _ => rfl, ?_⟩
  intro digest d c1 k1 s1 c2 k2 s2 hc1 hk1 hs1 hc2 hk2 hs2 hne h
  exact hne (cache_key_inj_of_no_delim digest d c1 k1 s1 c2 k2 s2 hc1 hk1 hs1
    hc2 hk2 hs2 h)

/-- Witness for the amended C6: keys for the `minimal` and `standard` scopes
of one case differ under the MD5 stand-in digest. -/
theorem cache_key_deterministic_and_injective_witness :
    generate_cache_key_with md5Hex "t1" "c1" "minimal" none ≠
      generate_cache_key_with md5Hex "t1" "c1" "standard" none :=
  cache_key_deterministic_and_injective.2 md5Hex none "t1" "c1" "minimal"
    "t1" "c1" "standard" (by decide) (by decide) (by decide) (by decide)
    (by decide) (by decide) (by decide)

/-- C7 counterexample: a cache-enabled request with an unknown scope does
raise the descriptive client error, but only after consulting the cache: the
fast-tier miss counter of a fresh manager moves from 0 to 1, so the claim
"before any cache-tier I/O, leaving statistics unchanged" is false. -/
theorem invalid_scope_touches_cache_stats :
    invalidScopeRun.1 = Except.error "Invalid scope: bogus" ∧
    (CacheManager.memoryOnly ContextResponse).stats.memory_misses = 0 ∧
    invalidScopeRun.2.stats.memory_misses = 1 := by
  refine ⟨rfl, rfl, rfl⟩

/-- C7 amended: a request with an unknown scope (and no explicit dimension
list) or an explicit list containing an unknown dimension name fails with the
descriptive `ValueError` before any analyzer is consulted (the outcome is
identical for arbitrary analyzer behaviours); with the cache bypassed the
manager state is untouched, and with the cache enabled the only state change
is the one cache read performed before validation. -/
theorem build_client_error_before_analyzers
    (a1 a2 : AnalyzerOutcomes) (st : CacheManager ContextResponse) (now : Nat)
    (client_id case_id scope : String) (incl : Option (List String))
    (use_cache : Bool)
    (hbad : (incl.getD [] ≠ [] ∧
        ∃ d ∈ incl.getD [], ¬ VALID_DIMENSIONS.contains d) ∨
      (incl.getD [] = [] ∧ SCOPES.lookup scope = none)) :
    build_context a1 st now client_id case_id scope incl use_cache =
      build_context a2 st now client_id case_id scope incl use_cache ∧
    (use_cache = false →
      ∃ msg, build_context a1 st now client_id case_id scope incl false =
        (Except.error msg, st)) ∧
    ((st.get now client_id case_id scope none).1 = none →
      ∃ msg, build_context a1 st now client_id case_id scope incl true =
        (Except.error msg, (st.get now client_id case_id scope none).2)) := by
  obtain ⟨msg, hdd⟩ : ∃ msg, determine_dimensions scope incl =
      Except.error msg := by
    rcases hbad with ⟨hne, d, hd, hinv⟩ | ⟨hemp, hlk⟩
    · have hmem : d ∈ (incl.getD []).filter
          (fun x => ¬ VALID_DIMENSIONS.contains x) :=
        List.mem_filter.mpr ⟨hd, by simpa using hinv⟩
      refine ⟨"Invalid dimension names: " ++ String.intercalate ", "
        ((incl.getD []).filter (fun x => ¬ VALID_DIMENSIONS.contains x)), ?_⟩
      simp only [determine_dimensions]
      rw [if_pos hne, if_pos (List.ne_nil_of_mem hmem)]
    · refine ⟨"Invalid scope: " ++ scope, ?_⟩
      simp only [determine_dimensions]
      rw [if_neg (by simp [hemp]), hlk]
  refine ⟨?_, ?_, ?_⟩
  · simp only [build_context, hdd]
  · intro h
    exact ⟨msg, by simp only [build_context, Bool.false_eq_true, if_false, hdd]⟩
  · intro hmiss
    rcases hget : st.get now client_id case_id scope none with ⟨v, st1⟩
    rw [hget] at hmiss
    simp only at hmiss
    subst hmiss
    refine ⟨msg, ?_⟩
    simp only [build_context, if_true, hget, hdd]

/-- Witness for the amended C7 at an unknown scope on a fresh manager. -/
theorem build_client_error_before_analyzers_witness :
    build_context noOutcomes (CacheManager.memoryOnly ContextResponse) 0 "t1"
        "c1" "bogus" none true =
      build_context fourOfFive (CacheManager.memoryOnly ContextResponse) 0
        "t1" "c1" "bogus" none true ∧
    ((true : Bool) = false →
      ∃ msg, build_context noOutcomes (CacheManager.memoryOnly ContextResponse)
        0 "t1" "c1" "bogus" none false =
        (Except.error msg, CacheManager.memoryOnly ContextResponse)) ∧
    (((CacheManager.memoryOnly ContextResponse).get 0 "t1" "c1" "bogus"
        none).1 = none →
      ∃ msg, build_context noOutcomes (CacheManager.memoryOnly ContextResponse)
        0 "t1" "c1" "bogus" none true =
        (Except.error msg,
          ((CacheManager.memoryOnly ContextResponse).get 0 "t1" "c1" "bogus"
            none).2)) :=
  build_client_error_before_analyzers noOutcomes fourOfFive
    (CacheManager.memoryOnly ContextResponse) 0 "t1" "c1" "bogus" none true
    (Or.inr ⟨rfl, by decide⟩)

/-- C9: `invalidate_case` is definitionally `delete` with the scope omitted,
which removes the key of each of the three known scope values; concretely,
after writing entries for all three scopes of one case, the three entries are
present, `invalidate_case` reports 3 removals, and a subsequent `get` for
each scope is absent. -/
theorem invalidate_case_removes_all_scopes :
    (∀ (α : Type) (st : CacheManager α) (client_id case_id : String),
      st.invalidate_case client_id case_id =
        st.delete client_id case_id none none) ∧
    (threeScopeStore.get 1 "t1" "c1" "minimal" none).1 = some 1 ∧
    (threeScopeStore.get 1 "t1" "c1" "standard" none).1 = some 2 ∧
    (threeScopeStore.get 1 "t1" "c1" "comprehensive" none).1 = some 3 ∧
    (threeScopeStore.invalidate_case "t1" "c1").1 = 3 ∧
    ((threeScopeStore.invalidate_case "t1" "c1").2.get 1 "t1" "c1" "minimal"
      none).1 = none ∧
    ((threeScopeStore.invalidate_case "t1" "c1").2.get 1 "t1" "c1" "standard"
      none).1 = none ∧
    ((threeScopeStore.invalidate_case "t1" "c1").2.get 1 "t1" "c1"
      "comprehensive" none).1 = none := by
  refine ⟨fun _ _ _ _ => rfl, ?_, ?_, ?_, ?_, ?_, ?_, ?_⟩ <;> decide

/-- C10: asking for WHEN-dimension quality when the analyzer returns a
context with at least 8 timeline/deadline data points does not produce
metrics: the computed completeness score exceeds 1, which violates the
model's [0, 1] bound, so constructing `DimensionQualityMetrics` raises a
validation error. -/
theorem when_quality_validation_error (a : AnalyzerOutcomes) (c : WhenContext)
    (hwhen : a.whenDim = some c)
    (hdp : 8 ≤ c.timeline.length + c.upcoming_deadlines.length +
      c.past_deadlines.length) :
    get_dimension_quality a "WHEN" =
      Except.error "validation error: completeness_score must be in [0, 1]" := by
  have hup : ("WHEN" : String).toUpper = "WHEN" := by
    show String.map Char.toUpper "WHEN" = "WHEN"
    rw [String.map_eq]
    decide
  have har : analyzer_result a "WHEN" =
      some (a.whenDim.map DimContext.whenCtx) := rfl
  have hscore : 1 < score_dimension (.whenCtx c) := by
    simp only [score_dimension, score_when, if_true]
    have hq : (8 : ℚ) ≤ ((c.timeline.length + c.upcoming_deadlines.length +
        c.past_deadlines.length : Nat) : ℚ) := by
      exact_mod_cast hdp
    have hmin : (4/5 : ℚ) ≤ min 1 (((c.timeline.length +
        c.upcoming_deadlines.length + c.past_deadlines.length : Nat) : ℚ) /
        10) := le_min (by norm_num) (by linarith)
    linarith
  simp only [get_dimension_quality, hup, har, hwhen, Option.map_some']
  simp only [mkDimensionQualityMetrics]
  rw [if_pos (Or.inr hscore)]

/-- Witness for C10: the WHEN context with 8 timeline events triggers the
validation error. -/
theorem when_quality_validation_error_witness :
    get_dimension_quality whenOnly "WHEN" =
      Except.error "validation error: completeness_score must be in [0, 1]" :=
  when_quality_validation_error whenOnly whenOverTarget rfl (by decide)

end ContextEngine
